/- Verification of the consensus (errors-in-variables) linear regression
   engine `RegressConsensus.py` (functions `RegressConsensusW` and
   `RegressConsensus`).

   Embedding conventions:
   * Python floats are modelled as real numbers (`ℝ`).  An input element
     that may be NaN is modelled as `Option ℝ`, with `none` playing the
     role of NaN (the source detects NaN via `num != num`, which is true
     exactly for NaN).
   * The explicit IEEE infinities that the source stores in its outputs
     (`rmse = float("inf")`, `F = Inf`, `ta = Inf`) are modelled with
     `EReal` (`⊤` = +infinity); all other arithmetic stays in `ℝ`.
   * The SciPy cumulative distribution functions `fdtr` (F distribution)
     and `stdtr` (Student t) are external collaborators, not code of this
     repository; the embedding is parameterised over them
     (`fdtr : ℤ → ℤ → EReal → ℝ`, `stdtr : ℤ → EReal → ℝ`; the third
     argument of `fdtr` and the second of `stdtr` are `EReal` because the
     source feeds them the possibly-infinite values `F` and `ta`).
   * `ValueError` raising is modelled with `Except String`; the message
     strings are the source's.  Lean's total-field convention `x / 0 = 0`
     stands in for paths on which CPython would raise `ZeroDivisionError`;
     where that distinction decides a claim, the relevant zero divisor is
     exhibited explicitly by a theorem.
-/
import Mathlib

set_option maxHeartbeats 1000000

/-- A Python float entry of the input lists: `none` models NaN
(the source's `is_nan(num) = (num != num)` holds exactly for NaN),
`some x` models an ordinary float of value `x`. -/
abbrev PyVal := Option ℝ

/-- NaN-pair removal, lines 115-121 / 353-359 of the source:
`boo[i]` is true iff both `X[i]` and `Y[i]` are non-NaN, and exactly the
pairs with `boo` true are retained.  Equivalently: zip the two lists and
keep the pairs in which both members are actual numbers. -/
def cleanXY (X Y : List PyVal) : List (ℝ × ℝ) :=
  (X.zip Y).filterMap fun p => p.1.bind fun x => p.2.map fun y => (x, y)

/-- The cleaned `X` list (`X = [v for (v, b) in zip(X, boo) if b]`). -/
def cleanX (X Y : List PyVal) : List ℝ := (cleanXY X Y).map Prod.fst

/-- The cleaned `Y` list (`Y = [v for (v, b) in zip(Y, boo) if b]`). -/
def cleanY (X Y : List PyVal) : List ℝ := (cleanXY X Y).map Prod.snd

noncomputable section
open scoped Classical

/-- Source `sign_` (lines 79-80 / 317-318): `(a > 0) - (a < 0)`,
the three-valued sign. -/
def sign_ (a : ℝ) : ℝ := (if 0 < a then 1 else 0) - (if a < 0 then 1 else 0)

/-- Python `sum(l)/len(l)`, the means `mx`, `my` of lines 140-141. -/
def meanL (l : List ℝ) : ℝ := l.sum / (l.length : ℝ)

/-- Python `sum([i ** 2 for i in l])`, the sums `Sx2`, `Sy2` of lines 135-136. -/
def sumSq (l : List ℝ) : ℝ := (l.map fun i => i ^ 2).sum

/-- Python `sum([i * j for i, j in zip(X, Y)])`, the sum `Sxy` of line 137. -/
def sumMul (X Y : List ℝ) : ℝ := (List.zipWith (fun i j => i * j) X Y).sum

/-- Source `num = n * Sxy - Sx * Sy` (line 144). -/
def numXY (X Y : List ℝ) : ℝ := (X.length : ℝ) * sumMul X Y - X.sum * Y.sum

/-- Source `den = n * Sx2 - Sx ** 2` (line 145). -/
def denX (X : List ℝ) : ℝ := (X.length : ℝ) * sumSq X - X.sum ^ 2

/-- Source `n * Sy2 - Sy ** 2`, the centered second moment of `Y` appearing in
lines 146, 170, 172 and 179 (`n = len(X)`). -/
def denY (X Y : List ℝ) : ℝ := (X.length : ℝ) * sumSq Y - Y.sum ^ 2

/-- Pearson correlation `R = num / ((den ** .5) * ((n * Sy2 - Sy ** 2) ** .5))`
(line 146). -/
def Rcorr (X Y : List ℝ) : ℝ :=
  numXY X Y / (Real.sqrt (denX X) * Real.sqrt (denY X Y))

/-- Residual degrees of freedom (lines 126-130): `nu = n - 1`, minus one
more when the intercept is estimated (`intercept == 1`). -/
def nuOf (n : ℕ) (intercept : ℤ) : ℤ :=
  ((n : ℤ) - 1) - (if intercept = 1 then 1 else 0)

/-- The slope `b`, lines 151-182.  Outer branch on the intercept flag,
inner branch on the weight `Wx` (with `Wy = 1 - Wx` inlined).  The source
writes the weight `0.5` as `.5`; here it is the equal real `1/2`. -/
def slopeOf (X Y : List ℝ) (Wx : ℝ) (intercept : ℤ) : ℝ :=
  if intercept = 0 then
    (if Wx = 0 then sumMul X Y / sumSq X
     else if Wx = 1 then sign_ (Rcorr X Y) * sumSq Y / sumMul X Y
     else (1 - 2 * Wx) / (2 - 2 * Wx) * (sumMul X Y / sumSq X) +
       sign_ (Rcorr X Y) *
         Real.sqrt (((1 - 2 * Wx) * sumMul X Y) ^ 2 +
           4 * Wx * (1 - Wx) * (sumSq X * sumSq Y)) /
         (2 * (1 - Wx) * sumSq X))
  else
    (if Wx = 0 then numXY X Y / denX X
     else if Wx = 1 then denY X Y / numXY X Y
     else if Wx = 1 / 2 then sign_ (Rcorr X Y) * Real.sqrt (denY X Y / denX X)
     else (1 - 2 * Wx) / (2 * (1 - Wx)) * numXY X Y / denX X +
       sign_ (Rcorr X Y) *
         Real.sqrt (((2 * Wx - 1) * numXY X Y) ^ 2 +
           4 * Wx * (1 - Wx) * denX X * denY X Y) /
         (2 * (1 - Wx) * denX X))

/-- The intercept `a`: `0` when forced through the origin (line 153),
`my - b * mx` when estimated (line 182). -/
def interceptOf (X Y : List ℝ) (Wx : ℝ) (intercept : ℤ) : ℝ :=
  if intercept = 0 then 0
  else meanL Y - slopeOf X Y Wx intercept * meanL X

/-- Predicted values `yhat = [a + b * x for x in X]` (line 186). -/
def yhatOf (X Y : List ℝ) (Wx : ℝ) (intercept : ℤ) : List ℝ :=
  X.map fun x => interceptOf X Y Wx intercept + slopeOf X Y Wx intercept * x

/-- Residuals `r = [y - yh for y, yh in zip(Y, yhat)]` (line 189). -/
def residOf (X Y : List ℝ) (Wx : ℝ) (intercept : ℤ) : List ℝ :=
  List.zipWith (fun y yh => y - yh) Y (yhatOf X Y Wx intercept)

/-- Root mean square error (lines 192-195):
`norm(r)/sqrt(nu)` when `nu ≠ 0`, else `float("inf")`. -/
def rmseOf (X Y : List ℝ) (Wx : ℝ) (intercept : ℤ) : EReal :=
  if nuOf X.length intercept ≠ 0 then
    ((Real.sqrt (sumSq (residOf X Y Wx intercept)) /
        Real.sqrt ((nuOf X.length intercept : ℤ) : ℝ) : ℝ) : EReal)
  else ⊤

/-- The finite value of `rmse ** 2` on the `nu ≠ 0` path. -/
def s2rOf (X Y : List ℝ) (Wx : ℝ) (intercept : ℤ) : ℝ :=
  (Real.sqrt (sumSq (residOf X Y Wx intercept)) /
      Real.sqrt ((nuOf X.length intercept : ℤ) : ℝ)) ^ 2

/-- Source `s2 = rmse ** 2` (line 198): `+inf` exactly when `rmse` is. -/
def s2fitOf (X Y : List ℝ) (Wx : ℝ) (intercept : ℤ) : EReal :=
  if nuOf X.length intercept ≠ 0 then ((s2rOf X Y Wx intercept : ℝ) : EReal)
  else ⊤

/-- Regression sum of squares `RSS = (norm(yhat - mean(Y)) ** .5) ** 2`
(lines 203-204). -/
def RSSOf (X Y : List ℝ) (Wx : ℝ) (intercept : ℤ) : ℝ :=
  (Real.sqrt (sumSq ((yhatOf X Y Wx intercept).map fun yh => yh - meanL Y))) ^ 2

/-- First degrees-of-freedom argument of the F test (lines 215-223):
`n - nu - 1` when the intercept is estimated, else `n - nu`. -/
def dof1Of (n : ℕ) (intercept : ℤ) : ℤ :=
  if intercept = 1 then (n : ℤ) - nuOf n intercept - 1
  else (n : ℤ) - nuOf n intercept

/-- F statistic (lines 210-222): `Inf` when `s2 == 0` (perfect fit,
guarded because "Python cannot divide by 0"), otherwise
`(RSS / dof1) / s2`; when `s2` is itself `+inf` (the `nu = 0` path) the
Python division of a finite float by `inf` yields `0.0`. -/
def FOf (X Y : List ℝ) (Wx : ℝ) (intercept : ℤ) : EReal :=
  if s2fitOf X Y Wx intercept = 0 then ⊤
  else if nuOf X.length intercept = 0 then ((0 : ℝ) : EReal)
  else ((RSSOf X Y Wx intercept / ((dof1Of X.length intercept : ℤ) : ℝ) /
      s2rOf X Y Wx intercept : ℝ) : EReal)

/-- Source `r2 = R ** 2` (line 207): squared Pearson correlation. -/
def r2Of (X Y : List ℝ) : ℝ := Rcorr X Y ^ 2

/-- Source `r2_adj = 1 - (1 - r2) * ((n - 1) / (n - k - 1))` with `k = 1`
(lines 208-209). -/
def r2adjOf (X Y : List ℝ) : ℝ :=
  1 - (1 - r2Of X Y) * (((X.length : ℝ) - 1) / ((X.length : ℝ) - 1 - 1))

/-- Regression p-value `1 - fdtr(dof1, nu, F)` (lines 217, 223). -/
def pvalOf (fdtr : ℤ → ℤ → EReal → ℝ) (X Y : List ℝ) (Wx : ℝ)
    (intercept : ℤ) : ℝ :=
  1 - fdtr (dof1Of X.length intercept) (nuOf X.length intercept)
      (FOf X Y Wx intercept)

/-- Recomputed error variance `s2 = sum(r * r) / nu` (line 226). -/
def s2Of (X Y : List ℝ) (Wx : ℝ) (intercept : ℤ) : ℝ :=
  ((residOf X Y Wx intercept).map fun i => i * i).sum /
    ((nuOf X.length intercept : ℤ) : ℝ)

/-- Standard error of the slope `sb = (n * s2 / den) ** .5` (line 227). -/
def sbOf (X Y : List ℝ) (Wx : ℝ) (intercept : ℤ) : ℝ :=
  Real.sqrt ((X.length : ℝ) * s2Of X Y Wx intercept / denX X)

/-- Standard error of the intercept (lines 228-231):
`(Sx2 * s2 / den) ** .5` when the intercept is estimated, else `0`. -/
def saOf (X Y : List ℝ) (Wx : ℝ) (intercept : ℤ) : ℝ :=
  if intercept = 1 then
    Real.sqrt (sumSq X * s2Of X Y Wx intercept / denX X)
  else 0

/-- Slope t value `tb = b / sb` (lines 236, 242). -/
def tbOf (X Y : List ℝ) (Wx : ℝ) (intercept : ℤ) : ℝ :=
  slopeOf X Y Wx intercept / sbOf X Y Wx intercept

/-- Intercept t value (lines 237, 243): `a / sa` when the intercept is
estimated, else `Inf` ("for intercept==0, a=0, sa=0"). -/
def taOf (X Y : List ℝ) (Wx : ℝ) (intercept : ℤ) : EReal :=
  if intercept = 1 then
    ((interceptOf X Y Wx intercept / saOf X Y Wx intercept : ℝ) : EReal)
  else ⊤

/-- Slope p-value `pval_b = 2 * (1 - stdtr(nu, tb))` (lines 239, 244). -/
def spvalOf (stdtr : ℤ → EReal → ℝ) (X Y : List ℝ) (Wx : ℝ)
    (intercept : ℤ) : ℝ :=
  2 * (1 - stdtr (nuOf X.length intercept) ((tbOf X Y Wx intercept : ℝ) : EReal))

/-- Intercept p-value `pval_a = 2 * (1 - stdtr(nu, ta))` (lines 240, 245). -/
def ipvalOf (stdtr : ℤ → EReal → ℝ) (X Y : List ℝ) (Wx : ℝ)
    (intercept : ℤ) : ℝ :=
  2 * (1 - stdtr (nuOf X.length intercept) (taOf X Y Wx intercept))

/-- The result dictionary (lines 249-260 / 488-499), the spec's FitResult
record. -/
structure FitResult where
  slope : ℝ
  sse : ℝ
  intercept : ℝ
  ise : ℝ
  r2 : ℝ
  r2_adj : ℝ
  F : EReal
  pvalue : ℝ
  stvalue : ℝ
  itvalue : EReal
  spvalue : ℝ
  ipvalue : ℝ

/-- The shared fitting/statistics core applied to the cleaned real-valued
lists: everything after NaN removal in either entry point. -/
def fitCore (fdtr : ℤ → ℤ → EReal → ℝ) (stdtr : ℤ → EReal → ℝ)
    (X Y : List ℝ) (Wx : ℝ) (intercept : ℤ) : FitResult :=
  { slope := slopeOf X Y Wx intercept
    sse := sbOf X Y Wx intercept
    intercept := interceptOf X Y Wx intercept
    ise := saOf X Y Wx intercept
    r2 := r2Of X Y
    r2_adj := r2adjOf X Y
    F := FOf X Y Wx intercept
    pvalue := pvalOf fdtr X Y Wx intercept
    stvalue := tbOf X Y Wx intercept
    itvalue := taOf X Y Wx intercept
    spvalue := spvalOf stdtr X Y Wx intercept
    ipvalue := ipvalOf stdtr X Y Wx intercept }

/-- Function `RegressConsensusW(X, Y, Wx, intercept)` (lines 26-261): validation
in source order (lines 96-112), then NaN-pair removal, then the core.
`ValueError` is modelled by `Except.error` carrying the source's message. -/
def RegressConsensusW (fdtr : ℤ → ℤ → EReal → ℝ) (stdtr : ℤ → EReal → ℝ)
    (X Y : List PyVal) (Wx : ℝ) (intercept : ℤ) : Except String FitResult :=
  if X.length < 2 ∨ Y.length < 2 then
    .error "X and Y need to have at least 2 observations"
  else if ¬X.length = Y.length then
    .error "X and Y need to have equal number of observations"
  else if 1 < Wx ∨ Wx < 0 then
    .error "Wx needs to be between [0,1]"
  else if ¬(intercept = 1 ∨ intercept = 0) then
    .error "intercept needs to be either 1 (a~=0) or 0 (a=0)"
  else
    .ok (fitCore fdtr stdtr (cleanX X Y) (cleanY X Y) Wx intercept)

/-- Function `numpy.var`: population variance (mean of squared deviations,
`ddof = 0`), as called on the cleaned lists at line 387. -/
def npVar (l : List ℝ) : ℝ :=
  (l.map fun x => (x - meanL l) ^ 2).sum / (l.length : ℝ)

/-- The weighting factor of line 387:
`Wx = (sX ** 2 / var(X)) / (sX ** 2 / var(X) + sY ** 2 / var(Y))`,
with `var` the numpy population variance of the cleaned lists. -/
def WxDerived (Xc Yc : List ℝ) (sX sY : ℝ) : ℝ :=
  (sX ^ 2 / npVar Xc) / (sX ^ 2 / npVar Xc + sY ^ 2 / npVar Yc)

/-- Function `RegressConsensus(X, Y, sX, sY, intercept)` (lines 264-500):
the same validation minus the `Wx` range check (lines 334-350), NaN-pair
removal, weight derivation from the uncertainties (lines 386-388), then
the identical core. -/
def RegressConsensus (fdtr : ℤ → ℤ → EReal → ℝ) (stdtr : ℤ → EReal → ℝ)
    (X Y : List PyVal) (sX sY : ℝ) (intercept : ℤ) : Except String FitResult :=
  if X.length < 2 ∨ Y.length < 2 then
    .error "X and Y need to have at least 2 observations"
  else if ¬X.length = Y.length then
    .error "X and Y need to have equal number of observations"
  else if ¬(intercept = 1 ∨ intercept = 0) then
    .error "intercept needs to be either 1 (a~=0) or 0 (a=0)"
  else
    .ok (fitCore fdtr stdtr (cleanX X Y) (cleanY X Y)
      (WxDerived (cleanX X Y) (cleanY X Y) sX sY) intercept)

/-- Sample variance (`ddof = 1`): the divisor is `n - 1`.  This is the
variance named by the spec's weight-derivation formula. -/
def sampleVar (l : List ℝ) : ℝ :=
  (l.map fun x => (x - meanL l) ^ 2).sum / ((l.length : ℝ) - 1)

/-- Modelled from the spec (§4.2): the weight
`Wx = (sX²/Var(X)) / (sX²/Var(X) + sY²/Var(Y))` computed with the
*sample* variance of the NaN-cleaned sequences, the comparison target of
the refinement claim about the uncertainty-derived entry point. -/
def WxSpec (X Y : List PyVal) (sX sY : ℝ) : ℝ :=
  (sX ^ 2 / sampleVar (cleanX X Y)) /
    (sX ^ 2 / sampleVar (cleanX X Y) + sY ^ 2 / sampleVar (cleanY X Y))

/-- Reference ordinary-least-squares slope of Y on X in textbook deviation
form (spec §8: "verify against a reference OLS implementation"):
centered covariance over centered variance of X, on the cleaned pairs. -/
def olsSlope (c : List (ℝ × ℝ)) : ℝ :=
  (c.map fun p =>
      (p.1 - meanL (c.map Prod.fst)) * (p.2 - meanL (c.map Prod.snd))).sum /
    (c.map fun p => (p.1 - meanL (c.map Prod.fst)) ^ 2).sum

/-- Reference OLS intercept: `mean Y - slope * mean X`. -/
def olsIntercept (c : List (ℝ × ℝ)) : ℝ :=
  meanL (c.map Prod.snd) - olsSlope c * meanL (c.map Prod.fst)

/-- Whether a modelled call returned normally (no `ValueError`). -/
def retOk : Except String FitResult → Bool
  | .ok _ => true
  | .error _ => false

end

/- ## Helper lemmas -/

lemma cleanX_length (X Y : List PyVal) :
    (cleanX X Y).length = (cleanXY X Y).length := by
  simp [cleanX]

lemma cleanY_length (X Y : List PyVal) :
    (cleanY X Y).length = (cleanXY X Y).length := by
  simp [cleanY]

/-- Under passing validation, `RegressConsensusW` returns the core applied
to the cleaned lists. -/
lemma RegressConsensusW_ok (fdtr : ℤ → ℤ → EReal → ℝ) (stdtr : ℤ → EReal → ℝ)
    (X Y : List PyVal) (Wx : ℝ) (intercept : ℤ)
    (h1 : 2 ≤ X.length) (h2 : 2 ≤ Y.length) (h3 : X.length = Y.length)
    (h4 : 0 ≤ Wx ∧ Wx ≤ 1) (h5 : intercept = 1 ∨ intercept = 0) :
    RegressConsensusW fdtr stdtr X Y Wx intercept =
      .ok (fitCore fdtr stdtr (cleanX X Y) (cleanY X Y) Wx intercept) := by
  rw [RegressConsensusW, if_neg (by omega), if_neg (by omega),
    if_neg (by push_neg; exact ⟨h4.2, h4.1⟩), if_neg (not_not_intro h5)]

/-- Under passing validation, `RegressConsensus` returns the core applied
to the cleaned lists with the uncertainty-derived weight. -/
lemma RegressConsensus_ok (fdtr : ℤ → ℤ → EReal → ℝ) (stdtr : ℤ → EReal → ℝ)
    (X Y : List PyVal) (sX sY : ℝ) (intercept : ℤ)
    (h1 : 2 ≤ X.length) (h2 : 2 ≤ Y.length) (h3 : X.length = Y.length)
    (h5 : intercept = 1 ∨ intercept = 0) :
    RegressConsensus fdtr stdtr X Y sX sY intercept =
      .ok (fitCore fdtr stdtr (cleanX X Y) (cleanY X Y)
        (WxDerived (cleanX X Y) (cleanY X Y) sX sY) intercept) := by
  rw [RegressConsensus, if_neg (by omega), if_neg (by omega),
    if_neg (not_not_intro h5)]

lemma zipWith_map_fst_snd (f : ℝ → ℝ → ℝ) (c : List (ℝ × ℝ)) :
    List.zipWith f (c.map Prod.fst) (c.map Prod.snd) =
      c.map fun p => f p.1 p.2 := by
  induction c with
  | nil => simp
  | cons p t ih => simp [ih]

lemma sum_map_shift_mul (c : List (ℝ × ℝ)) (u v : ℝ) :
    (c.map fun p => (p.1 - u) * (p.2 - v)).sum =
      (c.map fun p => p.1 * p.2).sum - u * (c.map Prod.snd).sum -
        v * (c.map Prod.fst).sum + (c.length : ℝ) * (u * v) := by
  induction c with
  | nil => simp
  | cons p t ih =>
    simp only [List.map_cons, List.sum_cons, List.length_cons, ih]
    push_cast
    ring

lemma sum_map_shift_sq (l : List ℝ) (u : ℝ) :
    (l.map fun x => (x - u) ^ 2).sum =
      (l.map fun x => x ^ 2).sum - 2 * u * l.sum + (l.length : ℝ) * u ^ 2 := by
  induction l with
  | nil => simp
  | cons x t ih =>
    simp only [List.map_cons, List.sum_cons, List.length_cons, ih]
    push_cast
    ring

lemma sum_sq_shift_nonneg (l : List ℝ) (u : ℝ) :
    0 ≤ (l.map fun x => (x - u) ^ 2).sum := by
  apply List.sum_nonneg
  intro x hx
  rcases List.mem_map.mp hx with ⟨a, _, rfl⟩
  positivity

lemma npVar_nonneg (l : List ℝ) : 0 ≤ npVar l := by
  exact div_nonneg (sum_sq_shift_nonneg l (meanL l)) (by positivity)

/-- Dividing by the sample variance is dividing by the population variance
up to the factor `(n-1)/n` (robust to zero variances under the `x/0 = 0`
convention). -/
lemma sampleVar_div (l : List ℝ) (a : ℝ) (h2 : 2 ≤ l.length) :
    a / sampleVar l =
      (((l.length : ℝ) - 1) / (l.length : ℝ)) * (a / npVar l) := by
  have hn : ((l.length : ℝ)) ≠ 0 := Nat.cast_ne_zero.mpr (by omega)
  rw [sampleVar, npVar, div_div_eq_mul_div, div_div_eq_mul_div,
    div_mul_div_comm,
    show ((l.length : ℝ) - 1) * (a * (l.length : ℝ)) =
      (l.length : ℝ) * (a * ((l.length : ℝ) - 1)) by ring,
    mul_div_mul_left _ _ hn]

/-- The uncertainty-derived weight always lies in `[0,1]`. -/
lemma WxDerived_mem (Xc Yc : List ℝ) (sX sY : ℝ) :
    0 ≤ WxDerived Xc Yc sX sY ∧ WxDerived Xc Yc sX sY ≤ 1 := by
  have hp : 0 ≤ sX ^ 2 / npVar Xc := div_nonneg (sq_nonneg _) (npVar_nonneg _)
  have hq : 0 ≤ sY ^ 2 / npVar Yc := div_nonneg (sq_nonneg _) (npVar_nonneg _)
  rw [WxDerived]
  constructor
  · exact div_nonneg hp (by linarith)
  · rcases eq_or_lt_of_le (add_nonneg hp hq) with h0 | h0
    · rw [← h0, div_zero]; norm_num
    · exact (div_le_one h0).mpr (le_add_of_nonneg_right hq)

/-- The spec's sample-variance weight equals the source's
population-variance weight: the `(n-1)/n` factor cancels in the ratio. -/
lemma WxSpec_eq_WxDerived (X Y : List PyVal) (sX sY : ℝ)
    (h : 2 ≤ (cleanXY X Y).length) :
    WxSpec X Y sX sY = WxDerived (cleanX X Y) (cleanY X Y) sX sY := by
  have hx2 : 2 ≤ (cleanX X Y).length := by rw [cleanX_length]; exact h
  have hy2 : 2 ≤ (cleanY X Y).length := by rw [cleanY_length]; exact h
  have e : ((cleanY X Y).length : ℝ) = ((cleanX X Y).length : ℝ) := by
    rw [cleanY_length, ← cleanX_length]
  have hc : (((cleanX X Y).length : ℝ) - 1) / ((cleanX X Y).length : ℝ) ≠ 0 := by
    have h2' : (2 : ℝ) ≤ ((cleanX X Y).length : ℝ) := by exact_mod_cast hx2
    exact div_ne_zero (by linarith) (by linarith)
  rw [WxSpec, WxDerived, sampleVar_div _ _ hx2, sampleVar_div _ _ hy2, e,
    ← mul_add, mul_div_mul_left _ _ hc]

/-- C1: for every input accepted by both entry points (raw validation
passes and at least two NaN-free pairs remain), `RegressConsensus`
returns the same result record as `RegressConsensusW` called with the
weight `Wx* = (sX²/Var(X)) / (sX²/Var(X) + sY²/Var(Y))` computed from the
*sample* variance of the NaN-cleaned sequences, as the spec's
weight-derivation formula states. -/
theorem regressConsensus_refines_weighted (fdtr : ℤ → ℤ → EReal → ℝ)
    (stdtr : ℤ → EReal → ℝ) (X Y : List PyVal) (sX sY : ℝ) (intercept : ℤ)
    (h1 : 2 ≤ X.length) (h2 : 2 ≤ Y.length) (h3 : X.length = Y.length)
    (h5 : intercept = 1 ∨ intercept = 0)
    (hcl : 2 ≤ (cleanXY X Y).length) :
    RegressConsensus fdtr stdtr X Y sX sY intercept =
      RegressConsensusW fdtr stdtr X Y (WxSpec X Y sX sY) intercept := by
  have hw := WxSpec_eq_WxDerived X Y sX sY hcl
  have hr := WxDerived_mem (cleanX X Y) (cleanY X Y) sX sY
  rw [RegressConsensus_ok fdtr stdtr X Y sX sY intercept h1 h2 h3 h5,
    RegressConsensusW_ok fdtr stdtr X Y _ intercept h1 h2 h3 (hw ▸ hr) h5, hw]

/-- Witness for C1 at `X = [1, 2, 3]`, `Y = [2, 4, 5]`, `sX = 1`,
`sY = 2`, free intercept. -/
theorem regressConsensus_refines_weighted_witness :
    2 ≤ ([some 1, some 2, some 3] : List PyVal).length ∧
    2 ≤ (cleanXY [some 1, some 2, some 3] [some 2, some 4, some 5]).length ∧
    RegressConsensus (fun _ _ _ => 0) (fun _ _ => 0)
        [some 1, some 2, some 3] [some 2, some 4, some 5] 1 2 1 =
      RegressConsensusW (fun _ _ _ => 0) (fun _ _ => 0)
        [some 1, some 2, some 3] [some 2, some 4, some 5]
        (WxSpec [some 1, some 2, some 3] [some 2, some 4, some 5] 1 2) 1 :=
  ⟨by decide, by decide,
    regressConsensus_refines_weighted (fun _ _ _ => 0) (fun _ _ => 0)
      [some 1, some 2, some 3] [some 2, some 4, some 5] 1 2 1
      (by decide) (by decide) (by decide) (Or.inl rfl) (by decide)⟩

/-- At `Wx = 0` with free intercept, the source's closed form
`(n*Sxy - Sx*Sy) / (n*Sx2 - Sx**2)` equals the textbook deviation-form
OLS slope. -/
lemma slopeOf_Wx0 (c : List (ℝ × ℝ)) (hn : c.length ≠ 0) :
    slopeOf (c.map Prod.fst) (c.map Prod.snd) 0 1 = olsSlope c := by
  have hnR : ((c.length : ℕ) : ℝ) ≠ 0 := Nat.cast_ne_zero.mpr hn
  have hmap : (c.map fun p => (p.1 - meanL (c.map Prod.fst)) ^ 2) =
      ((c.map Prod.fst).map fun x => (x - meanL (c.map Prod.fst)) ^ 2) := by
    rw [List.map_map]; rfl
  have hA : (c.map fun p =>
        (p.1 - meanL (c.map Prod.fst)) * (p.2 - meanL (c.map Prod.snd))).sum =
      numXY (c.map Prod.fst) (c.map Prod.snd) / (c.length : ℝ) := by
    rw [sum_map_shift_mul, numXY, sumMul, zipWith_map_fst_snd]
    simp only [meanL, List.length_map]
    field_simp
    ring
  have hB : (c.map fun p => (p.1 - meanL (c.map Prod.fst)) ^ 2).sum =
      denX (c.map Prod.fst) / (c.length : ℝ) := by
    rw [hmap, sum_map_shift_sq, denX, sumSq]
    simp only [meanL, List.length_map]
    field_simp
    ring
  rw [slopeOf, if_neg (by norm_num), if_pos rfl, olsSlope, hA, hB,
    div_div_eq_mul_div, div_mul_cancel₀ _ hnR]

/-- C2: for every valid input with `Wx = 0` and free intercept, the fitted
slope and intercept equal ordinary least-squares regression of Y on X
(reference deviation-form implementation on the cleaned pairs). -/
theorem weighted_Wx0_is_ols (fdtr : ℤ → ℤ → EReal → ℝ)
    (stdtr : ℤ → EReal → ℝ) (X Y : List PyVal)
    (h1 : 2 ≤ X.length) (h2 : 2 ≤ Y.length) (h3 : X.length = Y.length)
    (hcl : 2 ≤ (cleanXY X Y).length) :
    Except.map (fun r => (r.slope, r.intercept))
        (RegressConsensusW fdtr stdtr X Y 0 1) =
      .ok (olsSlope (cleanXY X Y), olsIntercept (cleanXY X Y)) := by
  have hn : (cleanXY X Y).length ≠ 0 := by omega
  rw [RegressConsensusW_ok fdtr stdtr X Y 0 1 h1 h2 h3
    ⟨le_refl 0, by norm_num⟩ (Or.inl rfl)]
  have hs : slopeOf (cleanX X Y) (cleanY X Y) 0 1 = olsSlope (cleanXY X Y) :=
    slopeOf_Wx0 (cleanXY X Y) hn
  have hi : interceptOf (cleanX X Y) (cleanY X Y) 0 1 =
      olsIntercept (cleanXY X Y) := by
    rw [interceptOf, if_neg (by norm_num), hs, olsIntercept]; rfl
  simp only [Except.map, fitCore, hs, hi]

/-- Witness for C2 at `X = [1, 2, 3]`, `Y = [2, 4, 5]`. -/
theorem weighted_Wx0_is_ols_witness :
    2 ≤ ([some 1, some 2, some 3] : List PyVal).length ∧
    2 ≤ (cleanXY [some 1, some 2, some 3] [some 2, some 4, some 5]).length ∧
    Except.map (fun r => (r.slope, r.intercept))
        (RegressConsensusW (fun _ _ _ => 0) (fun _ _ => 0)
          [some 1, some 2, some 3] [some 2, some 4, some 5] 0 1) =
      .ok (olsSlope (cleanXY [some 1, some 2, some 3] [some 2, some 4, some 5]),
        olsIntercept (cleanXY [some 1, some 2, some 3] [some 2, some 4, some 5])) :=
  ⟨by decide, by decide,
    weighted_Wx0_is_ols (fun _ _ _ => 0) (fun _ _ => 0)
      [some 1, some 2, some 3] [some 2, some 4, some 5]
      (by decide) (by decide) (by decide) (by decide)⟩

lemma sign_of_pos {a : ℝ} (h : 0 < a) : sign_ a = 1 := by
  rw [sign_, if_pos h, if_neg (asymm h)]; norm_num

lemma sign_of_neg {a : ℝ} (h : a < 0) : sign_ a = -1 := by
  rw [sign_, if_neg (asymm h), if_pos h]; norm_num

/-- The `Wx = 0.5`, free-intercept slope branch (line 172). -/
lemma slopeOf_half_free (Xc Yc : List ℝ) :
    slopeOf Xc Yc (1 / 2) 1 =
      sign_ (Rcorr Xc Yc) * Real.sqrt (denY Xc Yc / denX Xc) := by
  rw [slopeOf, if_neg (by norm_num), if_neg (by norm_num),
    if_neg (by norm_num), if_pos rfl]

lemma evalSx2 : sumSq ([1, 2, 3] : List ℝ) = 14 := by norm_num [sumSq]

lemma evalSy2 : sumSq ([1, 2, 4] : List ℝ) = 21 := by norm_num [sumSq]

lemma evalSxy : sumMul ([1, 2, 3] : List ℝ) [1, 2, 4] = 17 := by
  norm_num [sumMul]

lemma evalDenX : denX ([1, 2, 3] : List ℝ) = 6 := by
  norm_num [denX, evalSx2]

lemma evalDenY : denY ([1, 2, 3] : List ℝ) [1, 2, 4] = 14 := by
  norm_num [denY, evalSy2]

lemma evalNumXY : numXY ([1, 2, 3] : List ℝ) [1, 2, 4] = 9 := by
  norm_num [numXY, evalSxy]

lemma evalRpos : 0 < Rcorr ([1, 2, 3] : List ℝ) [1, 2, 4] := by
  rw [Rcorr, evalNumXY, evalDenX, evalDenY]
  positivity

/-- C3 counterexample: at `X = [1, 2, 3]`, `Y = [1, 2, 4]`, `Wx = 0.5`
with the origin-forced intercept setting, the returned slope's magnitude
is `sqrt(294)/14`, not the claimed `sqrt[(nΣy²−(Σy)²)/(nΣx²−(Σx)²)]`:
the claim's magnitude formula does not hold for both intercept settings. -/
theorem weighted_half_magnitude_counterexample :
    Except.map (fun r => |r.slope|)
        (RegressConsensusW (fun _ _ _ => 0) (fun _ _ => 0)
          [some 1, some 2, some 3] [some 1, some 2, some 4] (1 / 2) 0) ≠
      Except.ok (Real.sqrt
        (denY (cleanX [some 1, some 2, some 3] [some 1, some 2, some 4])
            (cleanY [some 1, some 2, some 3] [some 1, some 2, some 4]) /
          denX (cleanX [some 1, some 2, some 3] [some 1, some 2, some 4]))) := by
  have ex : cleanX [some 1, some 2, some 3] [some 1, some 2, some 4] =
      ([1, 2, 3] : List ℝ) := rfl
  have ey : cleanY [some 1, some 2, some 3] [some 1, some 2, some 4] =
      ([1, 2, 4] : List ℝ) := rfl
  rw [RegressConsensusW_ok (fun _ _ _ => 0) (fun _ _ => 0) _ _ (1 / 2) 0
    (by decide) (by decide) (by decide) (by norm_num) (Or.inr rfl), ex, ey]
  have hslope : slopeOf ([1, 2, 3] : List ℝ) [1, 2, 4] (1 / 2) 0 =
      Real.sqrt 294 / 14 := by
    rw [slopeOf, if_pos rfl, if_neg (by norm_num), if_neg (by norm_num),
      evalSx2, evalSy2, evalSxy, sign_of_pos evalRpos]
    norm_num
  have habs : |Real.sqrt 294 / 14| = Real.sqrt 294 / 14 :=
    abs_of_nonneg (by positivity)
  have hne : Real.sqrt 294 / 14 ≠ Real.sqrt (14 / 6) := by
    intro h
    have h1 : (Real.sqrt 294 / 14) ^ 2 = 294 / 196 := by
      rw [div_pow, Real.sq_sqrt (by norm_num : (0 : ℝ) ≤ 294)]
      norm_num
    rw [h, Real.sq_sqrt (by norm_num : (0 : ℝ) ≤ 14 / 6)] at h1
    norm_num at h1
  simp only [Except.map, fitCore, hslope, evalDenX, evalDenY, habs]
  intro h
  exact hne (by simpa using h)

/-- C3 amended: for valid input with `Wx = 0.5` and the *free* intercept
setting, when the centered second moments of X and Y are positive and the
correlation is nonzero, the returned slope's three-valued sign equals
`sign(R)` and its magnitude equals `sqrt[(nΣy²−(Σy)²)/(nΣx²−(Σx)²)]`.
(For the origin-forced setting the slope magnitude is instead built from
the uncentered moments, see the counterexample.) -/
theorem weighted_half_free_modelII (fdtr : ℤ → ℤ → EReal → ℝ)
    (stdtr : ℤ → EReal → ℝ) (X Y : List PyVal)
    (h1 : 2 ≤ X.length) (h2 : 2 ≤ Y.length) (h3 : X.length = Y.length)
    (hdx : 0 < denX (cleanX X Y))
    (hdy : 0 < denY (cleanX X Y) (cleanY X Y))
    (hR : Rcorr (cleanX X Y) (cleanY X Y) ≠ 0) :
    Except.map (fun r => (sign_ r.slope, |r.slope|))
        (RegressConsensusW fdtr stdtr X Y (1 / 2) 1) =
      Except.ok (sign_ (Rcorr (cleanX X Y) (cleanY X Y)),
        Real.sqrt (denY (cleanX X Y) (cleanY X Y) / denX (cleanX X Y))) := by
  rw [RegressConsensusW_ok fdtr stdtr X Y (1 / 2) 1 h1 h2 h3
    (by norm_num) (Or.inl rfl)]
  have hm : 0 < Real.sqrt (denY (cleanX X Y) (cleanY X Y) / denX (cleanX X Y)) :=
    Real.sqrt_pos.mpr (div_pos hdy hdx)
  have hb := slopeOf_half_free (cleanX X Y) (cleanY X Y)
  rcases lt_or_gt_of_ne hR with hneg | hpos
  · rw [sign_of_neg hneg] at hb ⊢
    simp only [Except.map, fitCore, hb]
    rw [sign_of_neg (by nlinarith), abs_of_neg (by nlinarith)]
    norm_num
  · rw [sign_of_pos hpos] at hb ⊢
    simp only [Except.map, fitCore, hb]
    rw [sign_of_pos (by nlinarith), abs_of_pos (by nlinarith)]
    norm_num

/-- Witness for the amended C3 at `X = [1, 2, 3]`, `Y = [1, 2, 4]`. -/
theorem weighted_half_free_modelII_witness :
    0 < denX (cleanX [some 1, some 2, some 3] [some 1, some 2, some 4]) ∧
    Rcorr (cleanX [some 1, some 2, some 3] [some 1, some 2, some 4])
        (cleanY [some 1, some 2, some 3] [some 1, some 2, some 4]) ≠ 0 ∧
    Except.map (fun r => (sign_ r.slope, |r.slope|))
        (RegressConsensusW (fun _ _ _ => 0) (fun _ _ => 0)
          [some 1, some 2, some 3] [some 1, some 2, some 4] (1 / 2) 1) =
      Except.ok
        (sign_ (Rcorr (cleanX [some 1, some 2, some 3] [some 1, some 2, some 4])
            (cleanY [some 1, some 2, some 3] [some 1, some 2, some 4])),
          Real.sqrt
            (denY (cleanX [some 1, some 2, some 3] [some 1, some 2, some 4])
                (cleanY [some 1, some 2, some 3] [some 1, some 2, some 4]) /
              denX (cleanX [some 1, some 2, some 3] [some 1, some 2, some 4]))) :=
  ⟨by show (0 : ℝ) < denX ([1, 2, 3] : List ℝ); rw [evalDenX]; norm_num,
    by show Rcorr ([1, 2, 3] : List ℝ) [1, 2, 4] ≠ 0; exact ne_of_gt evalRpos,
    weighted_half_free_modelII (fun _ _ _ => 0) (fun _ _ => 0)
      [some 1, some 2, some 3] [some 1, some 2, some 4]
      (by decide) (by decide) (by decide)
      (by show (0 : ℝ) < denX ([1, 2, 3] : List ℝ); rw [evalDenX]; norm_num)
      (by show (0 : ℝ) < denY ([1, 2, 3] : List ℝ) [1, 2, 4]; rw [evalDenY]; norm_num)
      (by show Rcorr ([1, 2, 3] : List ℝ) [1, 2, 4] ≠ 0; exact ne_of_gt evalRpos)⟩

lemma c4Sx2 : sumSq ([1, 2, 3, 4] : List ℝ) = 30 := by norm_num [sumSq]

lemma c4Sy2 : sumSq ([2, 4, 6, 8] : List ℝ) = 120 := by norm_num [sumSq]

lemma c4Sxy : sumMul ([1, 2, 3, 4] : List ℝ) [2, 4, 6, 8] = 60 := by
  norm_num [sumMul]

lemma c4denX : denX ([1, 2, 3, 4] : List ℝ) = 20 := by
  norm_num [denX, c4Sx2]

lemma c4denY : denY ([1, 2, 3, 4] : List ℝ) [2, 4, 6, 8] = 80 := by
  norm_num [denY, c4Sy2]

lemma c4num : numXY ([1, 2, 3, 4] : List ℝ) [2, 4, 6, 8] = 40 := by
  norm_num [numXY, c4Sxy]

lemma c4R : Rcorr ([1, 2, 3, 4] : List ℝ) [2, 4, 6, 8] = 1 := by
  have h1600 : Real.sqrt (20 * 80 : ℝ) = 40 := by
    rw [show (20 * 80 : ℝ) = 40 ^ 2 by norm_num,
      Real.sqrt_sq (by norm_num : (0 : ℝ) ≤ 40)]
  rw [Rcorr, c4num, c4denX, c4denY,
    ← Real.sqrt_mul (by norm_num : (0 : ℝ) ≤ 20), h1600]
  norm_num

lemma c4slope : slopeOf ([1, 2, 3, 4] : List ℝ) [2, 4, 6, 8] (1 / 2) 1 = 2 := by
  rw [slopeOf_half_free, c4R, c4denX, c4denY,
    sign_of_pos (by norm_num : (0 : ℝ) < 1),
    show (80 / 20 : ℝ) = 2 ^ 2 by norm_num,
    Real.sqrt_sq (by norm_num : (0 : ℝ) ≤ 2)]
  norm_num

lemma c4a : interceptOf ([1, 2, 3, 4] : List ℝ) [2, 4, 6, 8] (1 / 2) 1 = 0 := by
  rw [interceptOf, if_neg (by norm_num), c4slope]
  norm_num [meanL]

lemma c4resid :
    residOf ([1, 2, 3, 4] : List ℝ) [2, 4, 6, 8] (1 / 2) 1 = [0, 0, 0, 0] := by
  rw [residOf, yhatOf, c4a, c4slope]
  norm_num

lemma c4s2 : s2Of ([1, 2, 3, 4] : List ℝ) [2, 4, 6, 8] (1 / 2) 1 = 0 := by
  rw [s2Of, c4resid]
  norm_num

/-- C4: on the collinear perfect-fit input `X = [1,2,3,4]`,
`Y = [2,4,6,8]` (free intercept, default weight `0.5`), the modelled
result has `r2 = 1`, `F = +inf` — and slope standard error `sse = 0`.
The zero `sse` is the divisor of `tb = b / sb` at line 236 of the source,
so CPython raises `ZeroDivisionError` there instead of returning this
record: the "never crash on degenerate input" policy (and the guard the
source itself places on `F` at line 212) is violated by the slope t-value
computation. -/
theorem perfect_fit_r2_F_sse (fdtr : ℤ → ℤ → EReal → ℝ)
    (stdtr : ℤ → EReal → ℝ) :
    Except.map (fun r => (r.r2, r.F, r.sse))
        (RegressConsensusW fdtr stdtr
          [some 1, some 2, some 3, some 4] [some 2, some 4, some 6, some 8]
          (1 / 2) 1) =
      Except.ok (1, (⊤ : EReal), 0) := by
  have ex : cleanX [some 1, some 2, some 3, some 4]
      [some 2, some 4, some 6, some 8] = ([1, 2, 3, 4] : List ℝ) := rfl
  have ey : cleanY [some 1, some 2, some 3, some 4]
      [some 2, some 4, some 6, some 8] = ([2, 4, 6, 8] : List ℝ) := rfl
  rw [RegressConsensusW_ok fdtr stdtr _ _ (1 / 2) 1 (by decide) (by decide)
    (by decide) (by norm_num) (Or.inl rfl), ex, ey]
  have hs2fit : s2fitOf ([1, 2, 3, 4] : List ℝ) [2, 4, 6, 8] (1 / 2) 1 = 0 := by
    rw [s2fitOf, if_pos (by norm_num [nuOf]), s2rOf, c4resid]
    norm_num [sumSq]
  have hF : FOf ([1, 2, 3, 4] : List ℝ) [2, 4, 6, 8] (1 / 2) 1 = ⊤ := by
    rw [FOf, if_pos hs2fit]
  have hr2 : r2Of ([1, 2, 3, 4] : List ℝ) [2, 4, 6, 8] = 1 := by
    rw [r2Of, c4R]; norm_num
  have hsb : sbOf ([1, 2, 3, 4] : List ℝ) [2, 4, 6, 8] (1 / 2) 1 = 0 := by
    rw [sbOf, c4s2, c4denX]
    norm_num
  simp only [Except.map, fitCore, hF, hr2, hsb]

/-- C5: on the boundary input `X = [1, 2]`, `Y = [3, 5]` with free
intercept, the residual degrees of freedom are `nu = 0` and the internal
root-mean-square error takes the value `+inf` (lines 192-195), exactly as
the claim says.  The call nevertheless does not return: with `n = 2` the
adjusted-R² expression `(n - 1) / (n - k - 1)` at line 209 divides the
integer 1 by `n - k - 1 = 0`, so CPython raises `ZeroDivisionError`
before the result dictionary is built. -/
theorem nu0_rmse_top :
    rmseOf (cleanX [some 1, some 2] [some 3, some 5])
        (cleanY [some 1, some 2] [some 3, some 5]) (1 / 2) 1 = ⊤ ∧
    nuOf (cleanX [some 1, some 2] [some 3, some 5]).length 1 = 0 := by
  constructor
  · rw [rmseOf, if_neg (by decide)]
  · decide

/-- Erasing a pair whose `X` or `Y` member is NaN does not change the
cleaned pair list: that pair is dropped by the NaN filter anyway. -/
lemma cleanXY_eraseIdx (X Y : List PyVal) (i : ℕ)
    (hlen : X.length = Y.length) (hi : i < X.length)
    (hnan : X.getD i (some 0) = none ∨ Y.getD i (some 0) = none) :
    cleanXY (X.eraseIdx i) (Y.eraseIdx i) = cleanXY X Y := by
  induction X generalizing Y i with
  | nil => simp at hi
  | cons a X' ih =>
    cases Y with
    | nil => simp at hlen
    | cons b Y' =>
      cases i with
      | zero =>
        rcases hnan with h | h
        · simp only [List.getD_cons_zero] at h
          subst h
          simp [cleanXY, List.eraseIdx_cons_zero, List.zip_cons_cons,
            List.filterMap_cons]
        · simp only [List.getD_cons_zero] at h
          subst h
          cases a <;>
            simp [cleanXY, List.eraseIdx_cons_zero, List.zip_cons_cons,
              List.filterMap_cons]
      | succ j =>
        simp only [List.getD_cons_succ] at hnan
        have hlen' : X'.length = Y'.length := by simpa using hlen
        have hi' : j < X'.length := by simpa using hi
        have ht := ih Y' j hlen' hi' hnan
        simp only [cleanXY, List.eraseIdx_cons_succ, List.zip_cons_cons,
          List.filterMap_cons] at ht ⊢
        rw [ht]

/-- C6: for inputs that both pass raw validation, a pair with a NaN in
`X` or in `Y` at position `i` may equivalently be removed beforehand:
both entry points return identical results on the original and on the
erased input, for any weight/uncertainty/intercept arguments. -/
theorem nan_pair_drop_eq (fdtr : ℤ → ℤ → EReal → ℝ) (stdtr : ℤ → EReal → ℝ)
    (X Y : List PyVal) (i : ℕ) (Wx sX sY : ℝ) (intercept : ℤ)
    (hlen : X.length = Y.length) (h3 : 3 ≤ X.length) (hi : i < X.length)
    (hnan : X.getD i (some 0) = none ∨ Y.getD i (some 0) = none) :
    RegressConsensusW fdtr stdtr X Y Wx intercept =
      RegressConsensusW fdtr stdtr (X.eraseIdx i) (Y.eraseIdx i) Wx intercept ∧
    RegressConsensus fdtr stdtr X Y sX sY intercept =
      RegressConsensus fdtr stdtr (X.eraseIdx i) (Y.eraseIdx i) sX sY
        intercept := by
  have hclean := cleanXY_eraseIdx X Y i hlen hi hnan
  have hx : (X.eraseIdx i).length = X.length - 1 := by
    rw [List.length_eraseIdx]
    simp [hi]
  have hy : (Y.eraseIdx i).length = Y.length - 1 := by
    rw [List.length_eraseIdx]
    simp [hlen ▸ hi]
  have hcx : cleanX (X.eraseIdx i) (Y.eraseIdx i) = cleanX X Y := by
    rw [cleanX, cleanX, hclean]
  have hcy : cleanY (X.eraseIdx i) (Y.eraseIdx i) = cleanY X Y := by
    rw [cleanY, cleanY, hclean]
  have hA : ¬((X.eraseIdx i).length < 2 ∨ (Y.eraseIdx i).length < 2) := by
    omega
  have hB : ¬¬(X.eraseIdx i).length = (Y.eraseIdx i).length := by omega
  have hC : ¬(X.length < 2 ∨ Y.length < 2) := by omega
  have hD : ¬¬X.length = Y.length := by omega
  constructor
  · simp only [RegressConsensusW, hcx, hcy]
    rw [if_neg hC, if_neg hD, if_neg hA, if_neg hB]
  · simp only [RegressConsensus, hcx, hcy]
    rw [if_neg hC, if_neg hD, if_neg hA, if_neg hB]

/-- Witness for C6: `Y = [4, NaN, 6]` at position 1, against the erased
input `X = [1, 3]`, `Y = [4, 6]`. -/
theorem nan_pair_drop_eq_witness :
    ([some 1, some 2, some 3] : List PyVal).length =
      ([some 4, none, some 6] : List PyVal).length ∧
    1 < ([some 1, some 2, some 3] : List PyVal).length ∧
    ([some 4, none, some 6] : List PyVal).getD 1 (some 0) = none ∧
    (RegressConsensusW (fun _ _ _ => 0) (fun _ _ => 0)
        [some 1, some 2, some 3] [some 4, none, some 6] (1 / 2) 1 =
      RegressConsensusW (fun _ _ _ => 0) (fun _ _ => 0)
        (([some 1, some 2, some 3] : List PyVal).eraseIdx 1)
        (([some 4, none, some 6] : List PyVal).eraseIdx 1) (1 / 2) 1 ∧
    RegressConsensus (fun _ _ _ => 0) (fun _ _ => 0)
        [some 1, some 2, some 3] [some 4, none, some 6] 1 2 1 =
      RegressConsensus (fun _ _ _ => 0) (fun _ _ => 0)
        (([some 1, some 2, some 3] : List PyVal).eraseIdx 1)
        (([some 4, none, some 6] : List PyVal).eraseIdx 1) 1 2 1) :=
  ⟨rfl, by decide, rfl,
    nan_pair_drop_eq (fun _ _ _ => 0) (fun _ _ => 0)
      [some 1, some 2, some 3] [some 4, none, some 6] 1 (1 / 2) 1 2 1
      rfl (by decide) (by decide) (Or.inr rfl)⟩

/-- C7: both entry points fail with a `ValueError` (before any statistic
is computed: the checks are the first statements) whenever either raw
sequence has fewer than 2 elements or the lengths differ. -/
theorem invalid_lengths_raise (fdtr : ℤ → ℤ → EReal → ℝ)
    (stdtr : ℤ → EReal → ℝ) (X Y : List PyVal) (Wx sX sY : ℝ)
    (intercept : ℤ)
    (h : X.length < 2 ∨ Y.length < 2 ∨ ¬X.length = Y.length) :
    retOk (RegressConsensusW fdtr stdtr X Y Wx intercept) = false ∧
    retOk (RegressConsensus fdtr stdtr X Y sX sY intercept) = false := by
  by_cases h1 : X.length < 2 ∨ Y.length < 2
  · constructor
    · rw [RegressConsensusW, if_pos h1]; rfl
    · rw [RegressConsensus, if_pos h1]; rfl
  · have h2 : ¬X.length = Y.length := by omega
    constructor
    · rw [RegressConsensusW, if_neg h1, if_pos h2]; rfl
    · rw [RegressConsensus, if_neg h1, if_pos h2]; rfl

/-- Witness for C7 at the spec's error case `X = [1, 2, 3]`, `Y = [1, 2]`
(length mismatch). -/
theorem invalid_lengths_raise_witness :
    (([some 1, some 2, some 3] : List PyVal).length < 2 ∨
      ([some 1, some 2] : List PyVal).length < 2 ∨
      ¬([some 1, some 2, some 3] : List PyVal).length =
        ([some 1, some 2] : List PyVal).length) ∧
    (retOk (RegressConsensusW (fun _ _ _ => 0) (fun _ _ => 0)
        [some 1, some 2, some 3] [some 1, some 2] (1 / 2) 1) = false ∧
    retOk (RegressConsensus (fun _ _ _ => 0) (fun _ _ => 0)
        [some 1, some 2, some 3] [some 1, some 2] 1 2 1) = false) :=
  ⟨by decide,
    invalid_lengths_raise (fun _ _ _ => 0) (fun _ _ => 0)
      [some 1, some 2, some 3] [some 1, some 2] (1 / 2) 1 2 1 (by decide)⟩

/-- C8: on well-formed `X`, `Y` and intercept flag, `RegressConsensusW`
fails with a `ValueError` exactly when the weight lies outside `[0, 1]`
(so the boundary values 0 and 1 are accepted), while the
uncertainty-derived entry point has no weight range check and returns
normally for every `sX`, `sY`. -/
theorem weight_range_check (fdtr : ℤ → ℤ → EReal → ℝ)
    (stdtr : ℤ → EReal → ℝ) (X Y : List PyVal) (Wx sX sY : ℝ)
    (intercept : ℤ) (h1 : 2 ≤ X.length) (h2 : 2 ≤ Y.length)
    (h3 : X.length = Y.length) (h5 : intercept = 1 ∨ intercept = 0) :
    (retOk (RegressConsensusW fdtr stdtr X Y Wx intercept) = false ↔
      (1 < Wx ∨ Wx < 0)) ∧
    retOk (RegressConsensus fdtr stdtr X Y sX sY intercept) = true := by
  constructor
  · constructor
    · intro hfail
      by_contra hn
      push_neg at hn
      rw [RegressConsensusW_ok fdtr stdtr X Y Wx intercept h1 h2 h3
        ⟨hn.2, hn.1⟩ h5] at hfail
      simp [retOk] at hfail
    · intro hw
      rw [RegressConsensusW, if_neg (by omega), if_neg (not_not_intro h3),
        if_pos hw]
      rfl
  · rw [RegressConsensus_ok fdtr stdtr X Y sX sY intercept h1 h2 h3 h5]
    rfl

/-- Witness for C8 at `Wx = 1.5` on `X = [1, 2]`, `Y = [3, 5]`. -/
theorem weight_range_check_witness :
    2 ≤ ([some 1, some 2] : List PyVal).length ∧
    ((retOk (RegressConsensusW (fun _ _ _ => 0) (fun _ _ => 0)
        [some 1, some 2] [some 3, some 5] (3 / 2) 1) = false ↔
      (1 < (3 / 2 : ℝ) ∨ (3 / 2 : ℝ) < 0)) ∧
    retOk (RegressConsensus (fun _ _ _ => 0) (fun _ _ => 0)
        [some 1, some 2] [some 3, some 5] 1 2 1) = true) :=
  ⟨by decide,
    weight_range_check (fun _ _ _ => 0) (fun _ _ => 0)
      [some 1, some 2] [some 3, some 5] (3 / 2) 1 2 1
      (by decide) (by decide) (by decide) (Or.inl rfl)⟩

/-- C9: with the origin-forced intercept flag (`intercept = 0`), any
returned record has intercept exactly 0, intercept standard error exactly
0, intercept t-value `+inf`, and ipvalue `2 * (1 - stdtr(nu, +inf))`,
which is exactly 0 whenever the Student-t CDF evaluates to 1 at `+inf`
(as SciPy's `stdtr` does for positive degrees of freedom). -/
theorem forced_origin_intercept_stats (fdtr : ℤ → ℤ → EReal → ℝ)
    (stdtr : ℤ → EReal → ℝ) (X Y : List PyVal) (Wx sX sY : ℝ)
    (h1 : 2 ≤ X.length) (h2 : 2 ≤ Y.length) (h3 : X.length = Y.length)
    (h4 : 0 ≤ Wx ∧ Wx ≤ 1)
    (hstd : stdtr (nuOf (cleanX X Y).length 0) ⊤ = 1) :
    Except.map (fun r => (r.intercept, r.ise, r.itvalue, r.ipvalue))
        (RegressConsensusW fdtr stdtr X Y Wx 0) =
      Except.ok (0, 0, (⊤ : EReal), 0) ∧
    Except.map (fun r => (r.intercept, r.ise, r.itvalue, r.ipvalue))
        (RegressConsensus fdtr stdtr X Y sX sY 0) =
      Except.ok (0, 0, (⊤ : EReal), 0) := by
  have hint : ∀ Wx' : ℝ, interceptOf (cleanX X Y) (cleanY X Y) Wx' 0 = 0 :=
    fun _ => if_pos rfl
  have hsa : ∀ Wx' : ℝ, saOf (cleanX X Y) (cleanY X Y) Wx' 0 = 0 :=
    fun _ => if_neg (by norm_num)
  have hta : ∀ Wx' : ℝ, taOf (cleanX X Y) (cleanY X Y) Wx' 0 = ⊤ :=
    fun _ => if_neg (by norm_num)
  have hip : ∀ Wx' : ℝ, ipvalOf stdtr (cleanX X Y) (cleanY X Y) Wx' 0 = 0 := by
    intro Wx'
    rw [ipvalOf, hta Wx', hstd]
    norm_num
  constructor
  · rw [RegressConsensusW_ok fdtr stdtr X Y Wx 0 h1 h2 h3 h4 (Or.inr rfl)]
    simp only [Except.map, fitCore, hint, hsa, hta, hip]
  · rw [RegressConsensus_ok fdtr stdtr X Y sX sY 0 h1 h2 h3 (Or.inr rfl)]
    simp only [Except.map, fitCore, hint, hsa, hta, hip]

/-- Witness for C9 at `X = [1, 2, 3]`, `Y = [2, 4, 5]`, `Wx = 0.5`, with
a Student-t CDF that is 1 at `+inf`. -/
theorem forced_origin_intercept_stats_witness :
    ((fun _ _ => (1 : ℝ)) : ℤ → EReal → ℝ)
        (nuOf (cleanX [some 1, some 2, some 3] [some 2, some 4, some 5]).length 0)
        ⊤ = 1 ∧
    (Except.map (fun r => (r.intercept, r.ise, r.itvalue, r.ipvalue))
        (RegressConsensusW (fun _ _ _ => 0) (fun _ _ => 1)
          [some 1, some 2, some 3] [some 2, some 4, some 5] (1 / 2) 0) =
      Except.ok (0, 0, (⊤ : EReal), 0) ∧
    Except.map (fun r => (r.intercept, r.ise, r.itvalue, r.ipvalue))
        (RegressConsensus (fun _ _ _ => 0) (fun _ _ => 1)
          [some 1, some 2, some 3] [some 2, some 4, some 5] 1 2 0) =
      Except.ok (0, 0, (⊤ : EReal), 0)) :=
  ⟨rfl,
    forced_origin_intercept_stats (fun _ _ _ => 0) (fun _ _ => 1)
      [some 1, some 2, some 3] [some 2, some 4, some 5] (1 / 2) 1 2
      (by decide) (by decide) (by decide) (by norm_num) rfl⟩

/-- C10: whenever `sX > 0`, `sY > 0` and both cleaned sequences have
strictly positive (population) variance, the internally derived weight of
`RegressConsensus` satisfies `0 < Wx < 1`, and `Wy = 1 - Wx` lies in
`(0, 1)` as well: an out-of-range weight cannot arise in the
uncertainty-derived entry point even though it has no range check. -/
theorem derived_weight_in_open_interval (X Y : List PyVal) (sX sY : ℝ)
    (hsx : 0 < sX) (hsy : 0 < sY)
    (hvx : 0 < npVar (cleanX X Y)) (hvy : 0 < npVar (cleanY X Y)) :
    (0 < WxDerived (cleanX X Y) (cleanY X Y) sX sY ∧
      WxDerived (cleanX X Y) (cleanY X Y) sX sY < 1) ∧
    (0 < 1 - WxDerived (cleanX X Y) (cleanY X Y) sX sY ∧
      1 - WxDerived (cleanX X Y) (cleanY X Y) sX sY < 1) := by
  have hp : 0 < sX ^ 2 / npVar (cleanX X Y) := div_pos (by positivity) hvx
  have hq : 0 < sY ^ 2 / npVar (cleanY X Y) := div_pos (by positivity) hvy
  have hlt : WxDerived (cleanX X Y) (cleanY X Y) sX sY < 1 := by
    rw [WxDerived]
    exact (div_lt_one (by linarith)).mpr (by linarith)
  have hgt : 0 < WxDerived (cleanX X Y) (cleanY X Y) sX sY := by
    rw [WxDerived]
    exact div_pos hp (by linarith)
  exact ⟨⟨hgt, hlt⟩, ⟨by linarith, by linarith⟩⟩

/-- Witness for C10 at `X = [1, 2, 3]`, `Y = [2, 4, 5]`, `sX = 1`,
`sY = 2`. -/
theorem derived_weight_in_open_interval_witness :
    0 < npVar (cleanX [some 1, some 2, some 3] [some 2, some 4, some 5]) ∧
    ((0 < WxDerived (cleanX [some 1, some 2, some 3] [some 2, some 4, some 5])
        (cleanY [some 1, some 2, some 3] [some 2, some 4, some 5]) 1 2 ∧
      WxDerived (cleanX [some 1, some 2, some 3] [some 2, some 4, some 5])
        (cleanY [some 1, some 2, some 3] [some 2, some 4, some 5]) 1 2 < 1) ∧
    (0 < 1 - WxDerived (cleanX [some 1, some 2, some 3] [some 2, some 4, some 5])
        (cleanY [some 1, some 2, some 3] [some 2, some 4, some 5]) 1 2 ∧
      1 - WxDerived (cleanX [some 1, some 2, some 3] [some 2, some 4, some 5])
        (cleanY [some 1, some 2, some 3] [some 2, some 4, some 5]) 1 2 < 1)) :=
  ⟨by show (0 : ℝ) < npVar ([1, 2, 3] : List ℝ); norm_num [npVar, meanL],
    derived_weight_in_open_interval
      [some 1, some 2, some 3] [some 2, some 4, some 5] 1 2
      (by norm_num) (by norm_num)
      (by show (0 : ℝ) < npVar ([1, 2, 3] : List ℝ); norm_num [npVar, meanL])
      (by show (0 : ℝ) < npVar ([2, 4, 5] : List ℝ); norm_num [npVar, meanL])⟩
